import Mathlib

/-!
# Verification of the scottish-window-film recommendation/pricing core

This file gives a shallow embedding of the core logic of the
scottish-window-film MCP server and proves properties about it:

* `Pricing.normalizeFilms` / `Pricing.calculatePricing` — the identifier-based
  pricing path (`src/lib/pricing.js`, shipped as `dist`), including the
  possibility of a thrown `TypeError` (modelled with `Except`).
* `Scoring.scoreFilms` — the two-pass relevance scorer
  (`src/lib/scoring.ts`): strict scoring, the sufficiency ("starvation")
  check, and the broaden-when-starved pass.
* `Expand.expandToProducts` — the product expander / brand diversifier
  (`src/tools/recommendFilms.ts`).
* `Estimate.estimateQuotes` — the baseline tier pricing
  (`src/tools/estimatePrice.js`, the `dist` revision with `budget_level`).

Modelling conventions for the JavaScript/TypeScript source:

* JS numbers are modelled as exact rationals `ℚ`; binary floating point
  rounding is uniformly abstracted away.  `Number(x.toFixed(2))` is modelled
  by `round2` (round half up to two decimals, which agrees with `toFixed`
  on the nonnegative values arising here).
* JS values are modelled by the inductive `JSVal` (undefined, null, booleans,
  numbers, strings, arrays, objects-as-association-lists with distinct keys).
* `Number(v)` coercion is modelled by `jsNumOr0`, which is exact on numbers
  and booleans; the code only ever uses it in `Number(v) || 0` position, where
  JS `NaN` collapses to `0`, and catalog numeric fields are JSON numbers, so
  non-numeric strings/objects are modelled as `0` as well.
* `String(v)` is modelled by `jsString`; JS decimal formatting of non-integer
  numbers is abstracted (catalog string fields are strings, so this is only
  reachable on malformed catalogs).
* `Array.prototype.sort` with a comparator is stable (ES2019); it is modelled
  by `List.insertionSort` with the non-strict "comes before or ties" relation
  of the comparator, which produces exactly the stable sort result.
* Default-locale `localeCompare` is modelled as code-point lexicographic
  comparison (they agree on the plain ASCII strings used in the catalog).
* Property access on `null`/`undefined` throws in JS.  The only place a claim
  exercises this is the pricing path, where `Pricing.findFilm` models the
  throw explicitly with `Except.error`; the scorer's unguarded field reads
  are modelled as yielding `undefined` on such values.
* Regex character class `\s` is modelled by ASCII whitespace.
-/

/-- Model of a JavaScript value (the subset relevant to this codebase).
Objects are association lists with pairwise-distinct keys. -/
inductive JSVal where
  | undefined
  | null
  | bool (b : Bool)
  | num (q : ℚ)
  | str (s : String)
  | arr (xs : List JSVal)
  | obj (fields : List (String × JSVal))

/-- JS truthiness (`NaN` is not modelled; see the header). -/
def jsTruthy : JSVal → Bool
  | .undefined => false
  | .null => false
  | .bool b => b
  | .num q => decide (q ≠ 0)
  | .str s => decide (s ≠ "")
  | .arr _ => true
  | .obj _ => true

/-- JS `a || b`. -/
def jsOr (a b : JSVal) : JSVal := if jsTruthy a then a else b

/-- Field lookup in an object association list (JS object keys are unique;
the model takes the first binding). -/
def lookupField : List (String × JSVal) → String → JSVal
  | [], _ => .undefined
  | (k, v) :: rest, key => if k = key then v else lookupField rest key

/-- Property read `v[key]`, yielding `undefined` for absent fields and for
non-object receivers (the throwing null/undefined case is modelled
separately in `Pricing.findFilm`, the only place a claim exercises it). -/
def getField : JSVal → String → JSVal
  | .obj fs, key => lookupField fs key
  | _, _ => .undefined

/-- Model of `Object.values`. -/
def objValues (fs : List (String × JSVal)) : List JSVal := fs.map (·.2)

/-- JS `typeof v === "object"` (true for `null`, arrays and objects). -/
def typeofObject : JSVal → Bool
  | .null => true
  | .arr _ => true
  | .obj _ => true
  | _ => false

/-- Model of `v && typeof v === "object"` — truthy object test (arrays and objects). -/
def truthyObject (v : JSVal) : Bool := jsTruthy v && typeofObject v

mutual

/-- JS `String(v)` conversion (decimal formatting of non-integer numbers is
abstracted, see header). -/
def jsString : JSVal → String
  | .undefined => "undefined"
  | .null => "null"
  | .bool b => cond b "true" "false"
  | .num q => if q.den = 1 then toString q.num else toString q
  | .str s => s
  | .arr xs => String.intercalate "," (jsStringItems xs)
  | .obj _ => "[object Object]"

/-- Model of `Array.prototype.join(",")` item conversion: null/undefined become the
empty string, everything else goes through `String(·)`. -/
def jsStringItems : List JSVal → List String
  | [] => []
  | .undefined :: vs => "" :: jsStringItems vs
  | .null :: vs => "" :: jsStringItems vs
  | v :: vs => jsString v :: jsStringItems vs

end

/-- JS `Number(v) || 0` (see the header for the abstraction on strings). -/
def jsNumOr0 : JSVal → ℚ
  | .num q => q
  | .bool b => cond b 1 0
  | _ => 0

/-- Strict-equality comparison of a JS value against a string
(`v === s` where `s` is a string). -/
def jsEqStr (v : JSVal) (s : String) : Bool :=
  match v with
  | .str t => t = s
  | _ => false

/-- ASCII lowercasing of one character (JS `toLowerCase` restricted to the
ASCII catalog data). -/
def lowerChar (c : Char) : Char :=
  if 65 ≤ c.toNat ∧ c.toNat ≤ 90 then Char.ofNat (c.toNat + 32) else c

/-- ASCII uppercasing of one character. -/
def upperChar (c : Char) : Char :=
  if 97 ≤ c.toNat ∧ c.toNat ≤ 122 then Char.ofNat (c.toNat - 32) else c

/-- JS `s.toLowerCase()` (ASCII). -/
def strLower (s : String) : String := String.mk (s.toList.map lowerChar)

/-- ASCII whitespace (model of regex `\s` / JS trim on catalog data). -/
def isWs (c : Char) : Bool := c = ' ' || c = '\t' || c = '\n' || c = '\r'

/-- JS `s.trim()`. -/
def strTrim (s : String) : String :=
  String.mk (((s.toList.dropWhile isWs).reverse.dropWhile isWs).reverse)

/-- Lexicographic (code-point) comparison of char lists: `a ≤ b`. -/
def charListLe : List Char → List Char → Bool
  | [], _ => true
  | _ :: _, [] => false
  | a :: as, b :: bs =>
    if a.toNat < b.toNat then true
    else if b.toNat < a.toNat then false
    else charListLe as bs

/-- String comparison used to model default-locale `localeCompare ≤ 0`. -/
def strLe (a b : String) : Bool := charListLe a.toList b.toList

/-- Substring search on char lists. -/
def containsSubAux : List Char → List Char → Bool
  | l, pat =>
    if List.isPrefixOf pat l then true
    else match l with
      | [] => false
      | _ :: cs => containsSubAux cs pat

/-- JS `s.includes(pat)` / regex literal-substring test. -/
def containsSub (s pat : String) : Bool := containsSubAux s.toList pat.toList

/-- Case-insensitive regex test `/pat/i.test(s)` for a literal lowercase
pattern `pat`. -/
def rtest (pat s : String) : Bool := containsSub (strLower s) pat

/-- Regex test for `a\s*b` (a literal, then any whitespace run, then another
literal), case-insensitive; used for `sun\s*control` and `dual\s*reflect`. -/
def startsWithWsGap (a b : List Char) (l : List Char) : Bool :=
  List.isPrefixOf a l && List.isPrefixOf b ((l.drop a.length).dropWhile isWs)

/-- Does `l` contain `a`, then whitespace, then `b` anywhere? -/
def containsWsGapAux (a b : List Char) : List Char → Bool
  | [] => startsWithWsGap a b []
  | c :: cs => startsWithWsGap a b (c :: cs) || containsWsGapAux a b cs

/-- Case-insensitive regex test for `a\s*b` inside `s`. -/
def rtestWsGap (a b s : String) : Bool :=
  containsWsGapAux a.toList b.toList (strLower s).toList

/-- Regex test `/anti[-\s]?vandal/i`. -/
def antiVandalTest (s : String) : Bool :=
  ["", "-", " ", "\t", "\n", "\r"].any
    (fun sep => containsSub (strLower s) ("anti" ++ sep ++ "vandal"))

/-- ASCII digit test (regex `\d`). -/
def isDigit (c : Char) : Bool := 48 ≤ c.toNat ∧ c.toNat ≤ 57

/-- Read a maximal digit run, returning its value and the rest. -/
def readDigits : List Char → ℕ → ℕ × List Char
  | [], acc => (acc, [])
  | c :: cs, acc =>
    if isDigit c then readDigits cs (10 * acc + (c.toNat - 48)) else (acc, c :: cs)

/-- Leftmost match of `/(\d+)\s*mil/` on an already-lowercased char list.
(The regex engine's backtracking on `\d+` can never succeed where the greedy
maximal run failed, because a shorter run leaves a digit where `mil` must
start, so the greedy left-to-right scan is exact.) -/
def parseMilAux : List Char → Option ℕ
  | [] => none
  | c :: cs =>
    if isDigit c then
      let p := readDigits (c :: cs) 0
      if List.isPrefixOf "mil".toList (p.2.dropWhile isWs) then some p.1
      else parseMilAux cs
    else parseMilAux cs

/-- Model of `parseMil` from `src/lib/scoring.ts`: extract the mil thickness from a
product name, e.g. `"7 mil"` becomes `7`.  An empty/absent name yields
`none` (the source's `if (!name) return null` collapses into the scan
finding no digits). -/
def parseMil (name : String) : Option ℕ := parseMilAux (strLower name).toList

/-- Split on regex `[,\|]` (JS `String.prototype.split`). -/
def splitCommaPipe : List Char → List Char → List String
  | [], cur => [String.mk cur.reverse]
  | c :: cs, cur =>
    if c = ',' ∨ c = '|' then String.mk cur.reverse :: splitCommaPipe cs []
    else splitCommaPipe cs (c :: cur)

/-- The `use_cases` normalization from `scoreFilms`: an array is lowercased
elementwise; anything else is coerced via `String(v || "")`, lowercased,
split on `[,\|]`, trimmed, and filtered for non-emptiness. -/
def useCasesOf (film : JSVal) : List String :=
  match getField film "use_cases" with
  | .arr us => us.map (fun u => strLower (jsString u))
  | v =>
    (((splitCommaPipe (strLower (jsString (jsOr v (.str "")))).toList []).map
      strTrim).filter (fun s => s ≠ ""))

/-- Model of `Number(x.toFixed(2))`: round half up to two decimal places (exact for
the nonnegative values arising in this code). -/
def round2 (q : ℚ) : ℚ := (Rat.floor (q * 100 + 1 / 2) : ℚ) / 100

theorem ratFloor_eq_intFloor (q : ℚ) : (Rat.floor q : ℤ) = ⌊q⌋ :=
  le_antisymm (Int.le_floor.mpr (Rat.le_floor.mp le_rfl)) (Rat.le_floor.mpr (Int.floor_le q))

theorem round2_eq (q : ℚ) : round2 q = ((⌊q * 100 + 1 / 2⌋ : ℤ) : ℚ) / 100 := by
  rw [round2, ratFloor_eq_intFloor]

theorem round2_mono : Monotone round2 := by
  intro a b hab
  rw [round2_eq, round2_eq]
  have h : ⌊a * 100 + 1 / 2⌋ ≤ ⌊b * 100 + 1 / 2⌋ := by
    apply Int.floor_le_floor; nlinarith
  have h2 : ((⌊a * 100 + 1 / 2⌋ : ℤ) : ℚ) ≤ ((⌊b * 100 + 1 / 2⌋ : ℤ) : ℚ) := by exact_mod_cast h
  linarith

theorem round2_strict {a b : ℚ} (h : a + 1 ≤ b) : round2 a < round2 b := by
  rw [round2_eq, round2_eq]
  have h1 : ⌊a * 100 + 1 / 2⌋ + 100 ≤ ⌊b * 100 + 1 / 2⌋ := by
    have h0 : ⌊a * 100 + 1 / 2 + 100⌋ ≤ ⌊b * 100 + 1 / 2⌋ := by
      apply Int.floor_le_floor; nlinarith
    have h3 : (((100 : ℤ) : ℚ)) = (100 : ℚ) := by norm_num
    rw [← h3, Int.floor_add_int] at h0
    exact h0
  have h2 : ((⌊a * 100 + 1 / 2⌋ : ℤ) : ℚ) + 100 ≤ ((⌊b * 100 + 1 / 2⌋ : ℤ) : ℚ) := by
    exact_mod_cast h1
  linarith

namespace Pricing

/-- Wrapper keys probed by `normalizeFilms` (`src/lib/pricing.js`). -/
def wrapperKeys : List String := ["films", "items", "data", "catalog", "rows", "list"]

/-- Probe the candidate wrapper keys in order for an array-valued field. -/
def findWrapper (fs : List (String × JSVal)) : List String → Option (List JSVal)
  | [] => none
  | k :: ks =>
    match lookupField fs k with
    | .arr xs => some xs
    | _ => findWrapper fs ks

/-- Model of `normalizeFilms` from `src/lib/pricing.js`: arrays pass through; falsy or
non-object inputs give `[]`; otherwise probe the wrapper keys; otherwise, if
every value of the object satisfies `typeof v === "object"` (which is true
for `null`!), return the values; otherwise `[]`. -/
def normalizeFilms (input : JSVal) : List JSVal :=
  match input with
  | .arr xs => xs
  | .obj fs =>
    match findWrapper fs wrapperKeys with
    | some xs => xs
    | none =>
      let values := objValues fs
      if values.length ≠ 0 ∧ values.all typeofObject then values else []
  | _ => []

/-- One line of the pricing result: either the explicit not-found marker
`{ sku, error }` (which has no numeric price fields) or a full quote. -/
inductive PriceLine where
  | notFound (sku : String) (error : String)
  | quote (sku : String) (unit_price_low unit_price_high subtotal_low subtotal_high : ℚ)
      (notes : String)

/-- Sku of a price line. -/
def PriceLine.skuOf : PriceLine → String
  | .notFound s _ => s
  | .quote s _ _ _ _ _ => s

/-- Quoted low unit price (0 for the not-found marker, which has none). -/
def PriceLine.uLow : PriceLine → ℚ
  | .notFound _ _ => 0
  | .quote _ lo _ _ _ _ => lo

/-- Quoted high unit price. -/
def PriceLine.uHigh : PriceLine → ℚ
  | .notFound _ _ => 0
  | .quote _ _ hi _ _ _ => hi

/-- Quoted low subtotal. -/
def PriceLine.sLow : PriceLine → ℚ
  | .notFound _ _ => 0
  | .quote _ _ _ lo _ _ => lo

/-- Quoted high subtotal. -/
def PriceLine.sHigh : PriceLine → ℚ
  | .notFound _ _ => 0
  | .quote _ _ _ _ hi _ => hi

/-- Is this line a full quote (rather than a not-found marker)? -/
def PriceLine.isQuote : PriceLine → Bool
  | .notFound _ _ => false
  | .quote _ _ _ _ _ _ => true

/-- Model of `filmsArr.find((f) => f.sku === sku)`: the predicate reads `f.sku`, which
throws a `TypeError` when the element is `null` or `undefined` (this is the
unguarded access the safety claim exercises). -/
def findFilm : List JSVal → String → Except String (Option JSVal)
  | [], _ => .ok none
  | f :: rest, sku =>
    match f with
    | .null => .error "TypeError: cannot read field sku of null"
    | .undefined => .error "TypeError: cannot read field sku of undefined"
    | _ =>
      if jsEqStr (getField f "sku") sku then .ok (some f) else findFilm rest sku

/-- Model of `film.typical_installed_price_per_sqft_usd?.[property_type] || 0`. -/
def baseUnit (film : JSVal) (property_type : String) : ℚ :=
  match getField film "typical_installed_price_per_sqft_usd" with
  | .null => 0
  | .undefined => 0
  | m => jsNumOr0 (getField m property_type)

/-- The fixed disclaimer attached to every quote. -/
def notesStr : String := "Estimate ±15% for access and complexity."

/-- The per-sku body of `calculatePricing`'s `map`: look up the film, return
the not-found marker if absent, otherwise quote `base ± 15%` with subtotals
computed from the *unrounded* low/high times the area, everything displayed
to two decimals. -/
def priceSku (filmsArr : List JSVal) (area : ℚ) (property_type : String) (sku : String) :
    Except String PriceLine :=
  match findFilm filmsArr sku with
  | .error e => .error e
  | .ok none => .ok (.notFound sku "Film not found")
  | .ok (some film) =>
    let base := baseUnit film property_type
    let low := base * (85 / 100)
    let high := base * (115 / 100)
    .ok (.quote sku (round2 low) (round2 high) (round2 (low * area)) (round2 (high * area))
      notesStr)

/-- Model of `sku_list.map(...)` with exception propagation. -/
def mapPrice (filmsArr : List JSVal) (area : ℚ) (property_type : String) :
    List String → Except String (List PriceLine)
  | [] => .ok []
  | sku :: rest =>
    match priceSku filmsArr area property_type sku with
    | .error e => .error e
    | .ok line =>
      match mapPrice filmsArr area property_type rest with
      | .error e => .error e
      | .ok lines => .ok (line :: lines)

/-- Model of `calculatePricing` from `src/lib/pricing.js`. -/
def calculatePricing (films : JSVal) (sku_list : List String) (area : ℚ)
    (property_type : String) : Except String (List PriceLine) :=
  mapPrice (normalizeFilms films) area property_type sku_list

/-- Elements that can appear in a `find` without throwing. -/
def notNullish : JSVal → Bool
  | .null => false
  | .undefined => false
  | _ => true

/-- The price line `calculatePricing` produces for one sku, as a total
function (the fallback branch is unreachable when the catalog has no
null/undefined entries, which is the only situation in which the theorems
below use it). -/
def priceLineOf (filmsArr : List JSVal) (area : ℚ) (property_type : String) (sku : String) :
    PriceLine :=
  match priceSku filmsArr area property_type sku with
  | .ok l => l
  | .error _ => .notFound sku "Film not found"

end Pricing

namespace Scoring

/-- Model of `normalizeFilms` from `src/lib/scoring.ts` — identical to the pricing
variant except that the flat-map branch requires `v && typeof v === "object"`
(so `null` values are rejected here, unlike in `src/lib/pricing.js`). -/
def normalizeFilms (input : JSVal) : List JSVal :=
  match input with
  | .arr xs => xs
  | .obj fs =>
    match Pricing.findWrapper fs Pricing.wrapperKeys with
    | some xs => xs
    | none =>
      let values := objValues fs
      if values.length ≠ 0 ∧ values.all truthyObject then values else []
  | _ => []

/-- The request context destructured by `scoreFilms` (its TS parameter type:
every field is an optional string / string array). -/
structure Ctx where
  property_type : Option String
  goals : Option (List String)
  vlt_preference : Option String
  install_location : Option String
  budget_level : Option String

/-- Model of `Array.isArray(goals) ? goals : []`, lowercased. -/
def goalsLcOf (c : Ctx) : List String := (c.goals.getD []).map strLower

/-- A film annotated with `score` and `why` (the spread `{ ...film, score, why }`). -/
structure Scored where
  film : JSVal
  score : ℚ
  why : List String

/-- Model of `String(film.series || "")`. -/
def seriesStrOf (film : JSVal) : String := jsString (jsOr (getField film "series") (.str ""))

/-- Model of `String(film.product_name || film.name || "")`. -/
def nameStrOf (film : JSVal) : String :=
  jsString (jsOr (getField film "product_name") (jsOr (getField film "name") (.str "")))

/-- Model of `String(film.category || "")`. -/
def categoryStrOf (film : JSVal) : String :=
  jsString (jsOr (getField film "category") (.str ""))

/-- Model of `isSecurityCategory` from the base pass: `/security/i` on category,
series or name, or `"security"` inside the joined lowercased use-cases. -/
def isSecurityCategory (film : JSVal) (useCases : List String) : Bool :=
  rtest "security" (categoryStrOf film) || rtest "security" (seriesStrOf film) ||
    rtest "security" (nameStrOf film) ||
    containsSub (String.intercalate "," useCases) "security"

/-- Model of `isGraffitiCategory` from the base pass. -/
def isGraffitiCategory (film : JSVal) (useCases : List String) : Bool :=
  rtest "graffiti" (categoryStrOf film) || rtest "graffiti" (seriesStrOf film) ||
    antiVandalTest (seriesStrOf film) || rtest "graffiti" (nameStrOf film) ||
    containsSub (String.intercalate "," useCases) "graffiti"

/-- The mil-thickness add-on inside the security branch:
`const mil = parseMil(nameStr); if (mil && mil >= 7) { score += 2.0;
why.push(`${mil} mil thickness`); }` — a flat `+2.0` plus a rationale entry
recording the parsed value. -/
def milBonus (nameStr : String) : ℚ × List String :=
  match parseMil nameStr with
  | some m => if m ≠ 0 ∧ 7 ≤ m then (2, [toString m ++ " mil thickness"]) else (0, [])
  | none => (0, [])

/-- The body of the base-scoring `map` in `scoreFilms`, applied to one film.
Score/rationale contributions are accumulated in exactly the source order.
(The `goalsLc`/`wants*` flags are computed once per call in the source and
captured by the closure; recomputing them per record is extensionally
identical because scoring is pure.) -/
def baseScoreFilm (c : Ctx) (film : JSVal) : Scored :=
  let goalsLc := goalsLcOf c
  let wantsHeat := goalsLc.contains "heat"
  let wantsUV := goalsLc.contains "uv" || goalsLc.contains "uv / fade" || goalsLc.contains "fade"
  let wantsPrivacy := goalsLc.contains "privacy"
  let wantsSecurity := goalsLc.contains "security"
  let wantsGraffiti := goalsLc.contains "graffiti"
  let seriesStr := seriesStrOf film
  let nameStr := nameStrOf film
  let categoryStr := categoryStrOf film
  let useCases := useCasesOf film
  -- goal fit from use_cases
  let st : ℚ × List String :=
    goalsLc.foldl
      (fun acc g =>
        if useCases.contains g then (acc.1 + 1 / 2, acc.2 ++ ["Good for " ++ g]) else acc)
      (0, [])
  -- property type hint: `film.best_for?.includes?.(property_type)`
  let bestForHit : Bool :=
    match getField film "best_for", c.property_type with
    | .arr xs, some pt => xs.any (fun v => jsEqStr v pt)
    | .arr xs, none => xs.any (fun v => match v with | .undefined => true | _ => false)
    | .str s, some pt => containsSub s pt
    | .str s, none => containsSub s "undefined"
    | _, _ => false
  let st :=
    if bestForHit then
      (st.1 + 2 / 10,
        st.2 ++ ["Geared for " ++ (match c.property_type with | some p => p | none => "undefined")])
    else st
  -- numeric perf signals
  let ir := jsNumOr0 (getField film "ir_reduction_pct")
  let uv := jsNumOr0 (getField film "uv_rejection_pct")
  let vlt := jsNumOr0 (getField film "visible_light_transmission")
  let st := if ir ≠ 0 ∧ wantsHeat then (st.1 + ir / 500, st.2) else st
  let st := if uv ≠ 0 ∧ wantsUV then (st.1 + uv / 500, st.2) else st
  let st :=
    if wantsUV ∧ 95 ≤ uv then (st.1 + 5 / 100, st.2 ++ ["High UV (95%+)"]) else st
  let st := if vlt ≠ 0 ∧ wantsPrivacy ∧ vlt < 20 then (st.1 + 2 / 10, st.2) else st
  -- security / graffiti handling
  let isSec := isSecurityCategory film useCases
  let isGraf := isGraffitiCategory film useCases
  let st :=
    if wantsSecurity then
      let st := if isSec then (st.1 + 3, st.2 ++ ["Security series"]) else st
      let mb := milBonus nameStr
      let st := (st.1 + mb.1, st.2 ++ mb.2)
      if isGraf ∧ ¬wantsGraffiti then (st.1 - 3 / 2, st.2 ++ ["Graffiti is not security"])
      else st
    else
      let st := if isSec then (st.1 - 25 / 100, st.2) else st
      if isGraf ∧ ¬wantsGraffiti then (st.1 - 75 / 100, st.2) else st
  -- VLT preference nudge
  let st :=
    match c.vlt_preference with
    | none => st
    | some vp =>
      if vp = "" then st
      else
        let pref := strLower vp
        if pref = "brighter" then
          if 65 ≤ vlt then (st.1 + 22 / 100, st.2 ++ ["Brighter: favors high VLT (65%+)"])
          else if 55 ≤ vlt then (st.1 + 18 / 100, st.2 ++ ["Brighter: favors VLT 55–64%"])
          else if vlt ≤ 25 then
            (st.1 - 12 / 100, st.2 ++ ["Brighter: avoids very dark (≤25% VLT)"])
          else st
        else if pref = "neutral" then
          if 35 ≤ vlt ∧ vlt ≤ 55 then (st.1 + 1 / 10, st.2 ++ ["Neutral: favors mid VLT (35–55%)"])
          else st
        else if pref = "darker" then
          if vlt ≤ 30 then (st.1 + 1 / 10, st.2 ++ ["Darker: favors ≤30% VLT"]) else st
        else st
  -- install location hint
  let st :=
    match c.install_location with
    | none => st
    | some il =>
      if il = "" then st
      else
        let loc := strLower il
        let isExteriorCapable :=
          rtest "exterior" categoryStr || rtest "osw" seriesStr || rtest "exterior" seriesStr ||
            rtest "exterior" nameStr
        let st :=
          if loc = "exterior" ∧ isExteriorCapable then
            (st.1 + 2 / 10, st.2 ++ ["Exterior-capable"])
          else st
        if loc = "interior" ∧ ¬isSec then (st.1 + 5 / 100, st.2) else st
  -- budget nudge (very light)
  let st :=
    match c.budget_level with
    | none => st
    | some bl =>
      if bl = "" then st
      else
        let tier := strLower bl
        let tierStr :=
          jsString (jsOr (getField film "tier") (jsOr (getField film "price_tier") (.str "")))
        if tier ≠ "" ∧ tierStr ≠ "" then
          let st :=
            if containsSub tier "value" ∧
                (rtest "value" tierStr || rtest "basic" tierStr || rtest "good" tierStr) then
              (st.1 + 5 / 100, st.2)
            else st
          let st :=
            if containsSub tier "mid" ∧
                (rtest "mid" tierStr || rtest "better" tierStr || rtest "standard" tierStr) then
              (st.1 + 5 / 100, st.2)
            else st
          if containsSub tier "premium" ∧
              (rtest "premium" tierStr || rtest "best" tierStr || rtest "elite" tierStr) then
            (st.1 + 5 / 100, st.2)
          else st
        else st
  ⟨film, st.1, st.2⟩

/-- The descending-score relation used by `sort((a, b) => b.score - a.score)`;
`scoreGe a b` means `a` comes before (or ties) `b`. -/
def scoreGe (a b : Scored) : Prop := b.score ≤ a.score

instance : DecidableRel scoreGe := fun a b => inferInstanceAs (Decidable (b.score ≤ a.score))

instance : IsTotal Scored scoreGe := ⟨fun a b => le_total b.score a.score⟩

instance : IsTrans Scored scoreGe := ⟨fun _ _ _ h1 h2 => le_trans h2 h1⟩

/-- Stable descending sort by score (JS `Array.prototype.sort` is stable). -/
def sortScored (l : List Scored) : List Scored := List.insertionSort scoreGe l

/-- The sufficiency ("starvation") check: at least 3 records with the best
score at least `0.8`, or at least 2 records with the best score at least
`1.0` (`top3.length ≥ k` is `sortedBase.length ≥ k` since `top3` is
`slice(0, 3)`; `maxScore` is the head score, `0` on empty). -/
def sufficientStrict (sorted : List Scored) : Bool :=
  let maxScore : ℚ := match sorted with | [] => 0 | s :: _ => s.score
  (decide (3 ≤ sorted.length) && decide ((8 / 10 : ℚ) ≤ maxScore)) ||
    (decide (2 ≤ sorted.length) && decide ((1 : ℚ) ≤ maxScore))

/-- The projected result shape: exactly the fields `sku`, `brand`, `vlt`,
`ir_pct`, `uv_pct`, `score` (2-decimal rounded) and `why`. -/
structure ScoredOut where
  sku : JSVal
  brand : JSVal
  vlt : JSVal
  ir_pct : JSVal
  uv_pct : JSVal
  score : ℚ
  why : List String

/-- The result projection `({ sku, brand, visible_light_transmission,
ir_reduction_pct, uv_rejection_pct, score, why }) => ({ ... })` with
`score: Number(score.toFixed(2))`. -/
def project (s : Scored) : ScoredOut :=
  ⟨getField s.film "sku", getField s.film "brand",
    getField s.film "visible_light_transmission", getField s.film "ir_reduction_pct",
    getField s.film "uv_rejection_pct", round2 s.score, s.why⟩

/-- The body of the broaden-when-starved `map`, applied to one already-scored
record (the source maps over `baseScored`, which `sort` has mutated in place,
so the input here is the sorted base pass). -/
def broadenFilm (c : Ctx) (s : Scored) : Scored :=
  let goalsLc := goalsLcOf c
  let wantsHeat := goalsLc.contains "heat"
  let wantsGlare := goalsLc.contains "glare"
  let wantsUV := goalsLc.contains "uv" || goalsLc.contains "uv / fade" || goalsLc.contains "fade"
  let wantsPrivacy := goalsLc.contains "privacy"
  let wantsSecurity := goalsLc.contains "security"
  let seriesStr := seriesStrOf s.film
  let nameStr := nameStrOf s.film
  let categoryStr := categoryStrOf s.film
  let vlt := jsNumOr0 (getField s.film "visible_light_transmission")
  let uv := jsNumOr0 (getField s.film "uv_rejection_pct")
  let looksSolar :=
    (rtest "solar" categoryStr || rtestWsGap "sun" "control" categoryStr ||
        rtest "reflect" categoryStr) ||
      (let sn := seriesStr ++ " " ++ nameStr;
        rtest "solar" sn || rtestWsGap "sun" "control" sn || rtest "prestige" sn ||
          rtest "silver" sn || rtest "quantum" sn || rtestWsGap "dual" "reflect" sn)
  let st : ℚ × List String := (s.score, s.why)
  let st :=
    if (wantsHeat || wantsGlare) ∧ looksSolar then
      (st.1 + 35 / 100, st.2 ++ ["Broadened: solar-control likely to help heat/glare"])
    else st
  let st :=
    if wantsPrivacy ∧ vlt ≤ 45 then
      (st.1 + 2 / 10, st.2 ++ ["Broadened: darker VLT for privacy"])
    else st
  let st :=
    if wantsUV ∧ 85 ≤ uv then (st.1 + 1 / 10, st.2 ++ ["Broadened: high UV rejection"])
    else st
  let st :=
    if wantsSecurity then
      if rtest "security" (categoryStr ++ " " ++ seriesStr ++ " " ++ nameStr) ||
          rtest "safety" (categoryStr ++ " " ++ seriesStr ++ " " ++ nameStr) then
        (st.1 + 1, st.2 ++ ["Broadened: security-oriented line"])
      else st
    else st
  ⟨s.film, st.1, st.2⟩

/-- De-duplication key `String(f.sku || f.product_name || f.name)` (note:
no `|| ""` default here, so a record with none of the fields keys as
`"undefined"`). -/
def scoredKey (s : Scored) : String :=
  jsString (jsOr (getField s.film "sku") (jsOr (getField s.film "product_name")
    (getField s.film "name")))

/-- The `Set`-based filter de-duplicating by `scoredKey`. -/
def dedupeByKey : List Scored → List String → List Scored
  | [], _ => []
  | f :: rest, seen =>
    let k := scoredKey f
    if seen.contains k then dedupeByKey rest seen
    else f :: dedupeByKey rest (k :: seen)

/-- The broaden-when-starved pipeline applied to the (sorted) base pass:
re-score, re-sort, `slice(0, 5)`, de-duplicate, project. -/
def broadenResult (c : Ctx) (sortedBase : List Scored) : List ScoredOut :=
  let broadened := sortedBase.map (broadenFilm c)
  let finalSorted := (sortScored broadened).take 5
  (dedupeByKey finalSorted []).map project

/-- Model of `scoreFilms` from `src/lib/scoring.ts`. -/
def scoreFilms (films : JSVal) (c : Ctx) : List ScoredOut :=
  let filmsArr := normalizeFilms films
  if filmsArr.length = 0 then []
  else
    let baseScored := filmsArr.map (baseScoreFilm c)
    let sortedBase := sortScored baseScored
    if sufficientStrict sortedBase then (sortedBase.take 3).map project
    else broadenResult c sortedBase

/-- The sorted strict (base) pass, as a named component. -/
def strictSorted (films : JSVal) (c : Ctx) : List Scored :=
  sortScored ((normalizeFilms films).map (baseScoreFilm c))

/-- The best strict score (`maxScore` in the source; `0` on empty). -/
def strictMaxScore (films : JSVal) (c : Ctx) : ℚ :=
  match strictSorted films c with
  | [] => 0
  | s :: _ => s.score

/-- Does the strict pass suffice for this catalog and context? -/
def sufficientAfterStrict (films : JSVal) (c : Ctx) : Bool :=
  sufficientStrict (strictSorted films c)

/-- The strict answer: projection of the top 3 of the sorted strict pass. -/
def strictTop3 (films : JSVal) (c : Ctx) : List ScoredOut :=
  ((strictSorted films c).take 3).map project

/-- The broadened answer, as a function of catalog and context. -/
def broadenedAnswer (films : JSVal) (c : Ctx) : List ScoredOut :=
  broadenResult c (strictSorted films c)

end Scoring

namespace Expand

/-- The optional context argument of `expandToProducts` (all fields optional
strings; an absent `ctx` object behaves as all-absent fields through the
`ctx?.` chains). -/
structure ECtx where
  property_type : Option String
  install_location : Option String
  vlt_preference : Option String
  budget_level : Option String

/-- Model of `vltScore` from `src/tools/recommendFilms.ts`: brighter favors high VLT,
darker low VLT, anything else (incl. empty) scores closeness to 50 as a
penalty. -/
def vltScore (vlt : Option ℚ) (pref : String) : ℚ :=
  match vlt with
  | none => 0
  | some v =>
    let p := strLower pref
    if p = "brighter" then v
    else if p = "darker" then 100 - v
    else |50 - v| * (-1)

/-- Model of `budgetTierRank`: premium 3, mid 2, value 1, anything else 0 (on the
string coercion of the raw field). -/
def budgetTierRank (t : JSVal) : ℚ :=
  let k := strLower (jsString (jsOr t (.str "")))
  if k = "premium" then 3 else if k = "mid" then 2 else if k = "value" then 1 else 0

/-- Model of `budgetAffinity`: exact tier 3, adjacent 1, farther −1; 0 when no tier
is wanted. -/
def budgetAffinity (t : JSVal) (wanted : String) : ℚ :=
  if wanted = "" then 0
  else
    let delta := |budgetTierRank t - budgetTierRank (.str wanted)|
    if delta = 0 then 3 else if delta = 1 then 1 else -1

/-- Helper for `prettyCase`: `replace(/[_-]+/g, " ")` — each run of
underscores/hyphens becomes a single space (the boolean tracks whether the
previous character belonged to a run). -/
def collapseDash : List Char → Bool → List Char
  | [], _ => []
  | c :: cs, inRun =>
    if c = '_' ∨ c = '-' then
      if inRun then collapseDash cs true else ' ' :: collapseDash cs true
    else c :: collapseDash cs false

/-- Regex `\w` (word character). -/
def isWordChar (c : Char) : Bool :=
  isDigit c || (97 ≤ c.toNat ∧ c.toNat ≤ 122) || (65 ≤ c.toNat ∧ c.toNat ≤ 90) || c = '_'

/-- Model of `replace(/\b\w/g, m => m.toUpperCase())`: uppercase each word character
that does not follow a word character. -/
def capWords : List Char → Bool → List Char
  | [], _ => []
  | c :: cs, prevWord =>
    (if isWordChar c && !prevWord then upperChar c else c) :: capWords cs (isWordChar c)

/-- Model of `prettyCase(s?: string)`: falsy gives `""`; otherwise collapse `[_-]+`
runs to spaces, trim, lowercase, and capitalize word starts. -/
def prettyCase (v : JSVal) : String :=
  if !jsTruthy v then ""
  else
    String.mk (capWords (strLower (strTrim (String.mk (collapseDash (jsString v).toList false)))).toList false)

/-- Model of `whyMatchCount`: how many of the requested goals this film satisfies by
the broad category/use-case heuristics (0 when no goals requested). -/
def whyMatchCount (wantGoals : List String) (film : JSVal) : ℕ :=
  if wantGoals.length = 0 then 0
  else
    let uc :=
      match getField film "use_cases" with
      | .arr us => us.map (fun u => strLower (jsString u))
      | _ => []
    (if (wantGoals.contains "heat" || wantGoals.contains "glare") &&
        (jsEqStr (getField film "category") "solar_control" || uc.contains "heat" ||
          uc.contains "glare") then 1 else 0)
    + (if wantGoals.contains "uv" &&
        (uc.contains "uv" || jsEqStr (getField film "category") "solar_control") then 1 else 0)
    + (if wantGoals.contains "privacy" &&
        (uc.contains "privacy" || jsEqStr (getField film "category") "privacy") then 1 else 0)
    + (if wantGoals.contains "security" &&
        (uc.contains "security" || jsEqStr (getField film "category") "security") then 1 else 0)
    + (if wantGoals.contains "decorative" &&
        (uc.contains "decorative" || jsEqStr (getField film "category") "decorative") then 1
      else 0)

/-- Model of `installLabel`: exterior-capable when `exterior_ok === true` or the
install locations include `"exterior"`, else interior.  (The source string
uses a non-breaking hyphen.) -/
def installLabel (film : JSVal) : String :=
  let locs :=
    match getField film "install_location" with
    | .arr xs => xs.map (fun l => strLower (jsString l))
    | _ => []
  if (match getField film "exterior_ok" with | .bool true => true | _ => false) ||
      locs.contains "exterior" then "Exterior‑capable"
  else "Interior"

/-- Model of `film?.use_cases?.includes?.(needle)` — strict membership in the raw
array (arrays), substring test (strings), otherwise undefined/falsy. -/
def jsIncludes (v : JSVal) (needle : String) : Bool :=
  match v with
  | .arr xs => xs.any (fun u => jsEqStr u needle)
  | .str s => containsSub s needle
  | _ => false

/-- The VLT number of a film: `visible_light_transmission` if it is a number,
else `vlt` if it is a number, else undefined. -/
def vltNumField (film : JSVal) : Option ℚ :=
  match getField film "visible_light_transmission" with
  | .num q => some q
  | _ =>
    match getField film "vlt" with
    | .num q => some q
    | _ => none

/-- Model of `brandAlias`: lowercase + trim; `"3m window film"` collapses to `"3m"`. -/
def brandAlias (b : JSVal) : String :=
  let n := strTrim (strLower (jsString (jsOr b (.str ""))))
  if n = "" then n else if n = "3m window film" then "3m" else n

/-- The brand alias of a film record. -/
def aliasOf (f : JSVal) : String := brandAlias (getField f "brand")

/-- Model of `matchesGoal`: with no goals everything matches; heat/glare match any
`solar_control` record; otherwise some lowercased use-case must be a
requested goal. -/
def matchesGoal (wantGoals : List String) (film : JSVal) : Bool :=
  if wantGoals.length = 0 then true
  else
    let uc :=
      match getField film "use_cases" with
      | .arr us => us.map (fun u => strLower (jsString u))
      | _ => []
    if (wantGoals.contains "heat" || wantGoals.contains "glare") &&
        jsEqStr (getField film "category") "solar_control" then true
    else uc.any (fun u => wantGoals.contains u)

/-- Model of `film?.exterior_ok === false`. -/
def exteriorFalse (film : JSVal) : Bool :=
  match getField film "exterior_ok" with
  | .bool false => true
  | _ => false

/-- Model of `matchesContext`: respect a declared property-type restriction and a
declared install-location restriction, and exclude `exterior_ok === false`
records when exterior is requested. -/
def matchesContext (wantProp wantLoc : String) (film : JSVal) : Bool :=
  let pts :=
    match getField film "best_for" with
    | .arr xs => xs.map (fun p => strLower (jsString p))
    | _ => []
  let propOk := wantProp = "" || pts.length = 0 || pts.contains wantProp
  let locs :=
    match getField film "install_location" with
    | .arr xs => xs.map (fun l => strLower (jsString l))
    | _ => []
  let locOk :=
    wantLoc = "" ||
      ((locs.length = 0 || locs.contains wantLoc) && !(wantLoc = "exterior" && exteriorFalse film))
  propOk && locOk

/-- Model of `goalWeight`: the composite relevance score used for ranking. -/
def goalWeight (wantGoals : List String) (wantVLT wantBudget : String) (film : JSVal) : ℚ :=
  let s1 : ℚ :=
    if jsEqStr (getField film "category") "solar_control" &&
        (wantGoals.contains "heat" || wantGoals.contains "glare") then 4 else 0
  let s2 : ℚ :=
    if wantGoals.contains "uv" &&
        (jsEqStr (getField film "category") "solar_control" ||
          jsIncludes (getField film "use_cases") "uv") then 2 else 0
  let s3 : ℚ :=
    if wantGoals.contains "privacy" && jsIncludes (getField film "use_cases") "privacy" then 3
    else 0
  let s4 : ℚ :=
    if wantGoals.contains "security" && jsEqStr (getField film "category") "security" then 4
    else 0
  let s5 : ℚ :=
    if wantGoals.contains "decorative" && jsEqStr (getField film "category") "decorative" then 3
    else 0
  s1 + s2 + s3 + s4 + s5 + vltScore (vltNumField film) wantVLT / 10 +
    budgetAffinity (getField film "price_tier") wantBudget

/-- The tertiary tiebreak "closeness of VLT to the preference target"
(`999` when the VLT is unknown). -/
def closPref (pref : String) (v : Option ℚ) : ℚ :=
  match v with
  | none => 999
  | some x =>
    if pref = "brighter" then |100 - x| else if pref = "darker" then |x - 0| else |50 - x|

/-- The final alphabetical key `` `${a?.brand || ""}|${a?.product_name || ""}` ``. -/
def titleKey (f : JSVal) : String :=
  jsString (jsOr (getField f "brand") (.str "")) ++ "|" ++
    jsString (jsOr (getField f "product_name") (.str ""))

/-- The relation "comes before or ties" for the composite ranking comparator of
`expandToProducts` (descending goal weight, then descending why-match count,
then ascending VLT closeness, then alphabetical brand|name). -/
def expandLe (wantGoals : List String) (wantVLT wantBudget : String) (a b : JSVal) : Prop :=
  let wa := goalWeight wantGoals wantVLT wantBudget a
  let wb := goalWeight wantGoals wantVLT wantBudget b
  if wa ≠ wb then wb < wa
  else
    let ya := whyMatchCount wantGoals a
    let yb := whyMatchCount wantGoals b
    if ya ≠ yb then yb < ya
    else
      let pref := if wantVLT = "" then "neutral" else wantVLT
      let ca := closPref pref (vltNumField a)
      let cb := closPref pref (vltNumField b)
      if ca ≠ cb then ca < cb
      else strLe (titleKey a) (titleKey b) = true

instance (wantGoals : List String) (wantVLT wantBudget : String) :
    DecidableRel (expandLe wantGoals wantVLT wantBudget) := by
  intro a b
  unfold expandLe
  dsimp only
  infer_instance

/-- The relation "comes before or ties" for the backfill sort `(a, b) => da - db`
(ascending distance from the wanted budget tier). -/
def backfillLe (wantBudget : String) (a b : JSVal) : Prop :=
  |budgetTierRank (getField a "price_tier") - budgetTierRank (.str wantBudget)| ≤
    |budgetTierRank (getField b "price_tier") - budgetTierRank (.str wantBudget)|

instance (wantBudget : String) : DecidableRel (backfillLe wantBudget) := by
  intro a b
  unfold backfillLe
  infer_instance

/-- The brand-diversity selection loop: walk the ranked list, skip records
with an empty brand alias, take a record if its brand is unseen **or three
records have already been taken**, and stop at five.  (The `continue` for an
empty alias skips the length check, but the accumulator is unchanged there
and the loop always stops the moment it reaches five, so checking after each
push is equivalent.) -/
def diversityLoop : List JSVal → List String → List JSVal → List JSVal
  | [], _, acc => acc
  | f :: rest, seen, acc =>
    if aliasOf f = "" then diversityLoop rest seen acc
    else if !(seen.contains (aliasOf f)) || decide (3 ≤ acc.length) then
      if 5 ≤ (acc ++ [f]).length then acc ++ [f]
      else diversityLoop rest (aliasOf f :: seen) (acc ++ [f])
    else if 5 ≤ acc.length then acc
    else diversityLoop rest seen acc

/-- The final de-duplication key: the `sku` value when truthy, else the
lowercased `brand|series|product_name` composite. -/
def expandKey (f : JSVal) : String :=
  let sku := getField f "sku"
  if jsTruthy sku then jsString sku
  else
    strLower (jsString (jsOr (getField f "brand") (.str ""))) ++ "|" ++
      strLower (jsString (jsOr (getField f "series") (.str ""))) ++ "|" ++
      strLower (jsString (jsOr (getField f "product_name") (.str "")))

/-- The display title `[brand, series, name].filter(Boolean).join(" • ")`
with `brand = f?.brand || "Unknown"`. -/
def mkTitle (f : JSVal) : String :=
  let brand := jsString (jsOr (getField f "brand") (.str "Unknown"))
  let series := if jsTruthy (getField f "series") then [jsString (getField f "series")] else []
  let name :=
    if jsTruthy (getField f "product_name") then [jsString (getField f "product_name")] else []
  String.intercalate " • " ([brand] ++ series ++ name)

/-- The subtitle `[prettyCase(category), installLabel(f)].filter(Boolean)
.join(" • ") || undefined`. -/
def mkSubtitle (f : JSVal) : Option String :=
  let pc := prettyCase (getField f "category")
  let s := String.intercalate " • " ((if pc = "" then [] else [pc]) ++ [installLabel f])
  if s = "" then none else some s

/-- One selected item: the film record (spread) plus display title/subtitle. -/
structure ExpandedItem where
  film : JSVal
  title : String
  subtitle : Option String

/-- The final loop: de-duplicate by `expandKey` and stop at five, attaching
title and subtitle. -/
def dedupLoop : List JSVal → List String → ℕ → List ExpandedItem
  | [], _, _ => []
  | f :: rest, seen, n =>
    if seen.contains (expandKey f) then dedupLoop rest seen n
    else if 5 ≤ n + 1 then [⟨f, mkTitle f, mkSubtitle f⟩]
    else ⟨f, mkTitle f, mkSubtitle f⟩ :: dedupLoop rest (expandKey f :: seen) (n + 1)

/-- The budget-tier predicate of `expandToProducts`:
`String(f?.price_tier || "").toLowerCase() === wantBudget` when a budget is
wanted, everything otherwise. -/
def tierPred (wantBudget : String) (f : JSVal) : Bool :=
  if wantBudget ≠ "" then
    strLower (jsString (jsOr (getField f "price_tier") (.str ""))) = wantBudget
  else true

/-- The tier-preference pool: budget-matching records first, and when fewer
than five match, backfill with the nearest other tiers.  (JS
`!tierPreferred.includes(f)` is reference equality on elements of `pool`, and
`tierPreferred` is exactly the `tierPred`-filtered sublist of `pool`, so the
complement filter is equivalent.) -/
def tierPreferredPool (wantBudget : String) (pool : List JSVal) : List JSVal :=
  if (pool.filter (tierPred wantBudget)).length < 5 then
    pool.filter (tierPred wantBudget) ++
      (List.insertionSort (backfillLe wantBudget)
          (pool.filter (fun f => !(tierPred wantBudget f)))).take
        (5 - (pool.filter (tierPred wantBudget)).length)
  else pool.filter (tierPred wantBudget)

/-- Model of `wantGoals` (`new Set(goals.map(lower))`, modelled as the lowercased list
— only membership and emptiness are consumed). -/
def wantGoalsOf (goals : List String) : List String := goals.map strLower

/-- Model of `(ctx?.property_type || "").toLowerCase()`. -/
def wantPropOf (ctx : ECtx) : String := strLower (ctx.property_type.getD "")

/-- Model of `(ctx?.install_location || "").toLowerCase()`. -/
def wantLocOf (ctx : ECtx) : String := strLower (ctx.install_location.getD "")

/-- Model of `(ctx?.vlt_preference || "").toLowerCase()`. -/
def wantVLTOf (ctx : ECtx) : String := strLower (ctx.vlt_preference.getD "")

/-- Model of `(ctx?.budget_level || "").toLowerCase()`. -/
def wantBudgetOf (ctx : ECtx) : String := strLower (ctx.budget_level.getD "")

/-- The eligibility pool: context filter plus broad goal filter. -/
def poolOf (catalog : List JSVal) (goals : List String) (ctx : ECtx) : List JSVal :=
  catalog.filter
    (fun f => matchesContext (wantPropOf ctx) (wantLocOf ctx) f &&
      matchesGoal (wantGoalsOf goals) f)

/-- The composite-ranked candidate list. -/
def rankedOf (catalog : List JSVal) (goals : List String) (ctx : ECtx) : List JSVal :=
  List.insertionSort (expandLe (wantGoalsOf goals) (wantVLTOf ctx) (wantBudgetOf ctx))
    (tierPreferredPool (wantBudgetOf ctx) (poolOf catalog goals ctx))

/-- Model of `expandToProducts` from `src/tools/recommendFilms.ts`: filter by context
and goal, prefer the wanted budget tier (backfilling by tier distance), rank
by the composite comparator, enforce brand diversity, and de-duplicate/trim
to five, attaching display titles.  Note that the `recs` parameter (the
scored candidates) is never used by the body. -/
def expandToProducts (recs : List JSVal) (catalog : List JSVal) (goals : List String)
    (ctx : ECtx) : List ExpandedItem :=
  dedupLoop (diversityLoop (rankedOf catalog goals ctx) [] []) [] 0

end Expand

namespace Estimate

/-- One baseline tier row of `estimate_price`. -/
structure Tier where
  id : String
  low : ℚ
  high : ℚ

/-- The baseline tier table: commercial assumes higher labor/access cost
than residential. -/
def tiersFor (property_type : String) : List Tier :=
  if property_type = "commercial" then
    [⟨"baseline_value", 16, 21⟩, ⟨"baseline_mid", 18, 23⟩, ⟨"baseline_premium", 20, 26⟩]
  else
    [⟨"baseline_value", 14, 19⟩, ⟨"baseline_mid", 16, 21⟩, ⟨"baseline_premium", 18, 24⟩]

/-- One baseline quote line: integral unit bounds, subtotals
`Number((square_feet * bound).toFixed(2))`. -/
def tierQuote (square_feet : ℚ) (t : Tier) : Pricing.PriceLine :=
  .quote t.id t.low t.high (round2 (square_feet * t.low)) (round2 (square_feet * t.high))
    Pricing.notesStr

/-- The quotes produced by the `estimate_price` handler
(`src/tools/estimatePrice.js`, baseline path — no sku list in this
revision): with a truthy `budget_level` only the matching tier (empty list
when the tier id matches nothing), otherwise all three tiers.  The
human-readable `price_range` string built alongside is presentation-only and
not modelled. -/
def estimateQuotes (square_feet : ℚ) (property_type : String)
    (budget_level : Option String) : List Pricing.PriceLine :=
  let tiers := tiersFor property_type
  match budget_level with
  | some b =>
    if b ≠ "" then
      match tiers.find? (fun t => t.id = "baseline_" ++ b) with
      | some t => [tierQuote square_feet t]
      | none => []
    else tiers.map (tierQuote square_feet)
  | none => tiers.map (tierQuote square_feet)

end Estimate

/-! ### Concrete catalogs and contexts used by witnesses and counterexamples -/

/-- A witness film: one use-case-tagged record. -/
def filmW (sku brand : String) : JSVal :=
  .obj [("sku", .str sku), ("brand", .str brand),
    ("use_cases", .arr [.str "heat", .str "glare"])]

/-- A witness catalog of three strict heat/glare matches (each scores `1.0`
under `ctxW`, so the strict pass is sufficient). -/
def catW : JSVal := .arr [filmW "w1" "alpha", filmW "w2" "beta", filmW "w3" "gamma"]

/-- The witness context: residential, goals heat+glare. -/
def ctxW : Scoring.Ctx := ⟨some "residential", some ["heat", "glare"], none, none, none⟩

/-- A security film whose name carries a mil thickness. -/
def filmMil (sku name : String) : JSVal :=
  .obj [("sku", .str sku), ("brand", .str "acme"), ("product_name", .str name),
    ("category", .str "security")]

/-- Counterexample catalog for the thickness claim: identical security films
except for the parsed mil value (7 vs 12). -/
def catC7 : JSVal := .arr [filmMil "s7" "Guard 7 mil", filmMil "s12" "Guard 12 mil"]

/-- Context requesting the security goal. -/
def ctxC7 : Scoring.Ctx := ⟨some "residential", some ["security"], none, none, none⟩

/-- A solar-control film with a VLT used to steer the composite ranking. -/
def filmX (sku brand name : String) (vlt : ℚ) : JSVal :=
  .obj [("sku", .str sku), ("brand", .str brand), ("product_name", .str name),
    ("category", .str "solar_control"), ("visible_light_transmission", .num vlt)]

/-- Counterexample catalog for brand diversity: six eligible solar-control
films over five distinct brands, with VLTs arranged so that the composite
ranking is `a1, b1, c1, a2, d1, e1` (the second `alpha` film ranks fourth). -/
def catC1 : List JSVal :=
  [filmX "a1" "alpha" "A One" 50, filmX "b1" "beta" "B One" 45,
    filmX "c1" "gamma" "C One" 40, filmX "a2" "alpha" "A Two" 35,
    filmX "d1" "delta" "D One" 30, filmX "e1" "epsilon" "E One" 25]

/-- Expansion context for the brand-diversity counterexample. -/
def ctxC1 : Expand.ECtx := ⟨some "residential", none, none, none⟩

/-- Counterexample film for the subtotal-rounding claim: its residential unit
price `1.11` makes `0.85 × 1.11 = 0.9435` need rounding. -/
def filmC4 : JSVal :=
  .obj [("sku", .str "a"),
    ("typical_installed_price_per_sqft_usd", .obj [("residential", .num (111 / 100))])]

/-- Witness film for identifier pricing: sku `"good"`, residential unit
price `2`. -/
def filmC5 : JSVal :=
  .obj [("sku", .str "good"),
    ("typical_installed_price_per_sqft_usd", .obj [("residential", .num 2)])]

/-- Witness catalog for identifier pricing. -/
def catC5 : List JSVal := [filmC5]

/-- The quote line that `calculatePricing` produces for the rounding
counterexample (`filmC4`, area 100, residential). -/
def lineC4 : Pricing.PriceLine :=
  .quote "a" (47 / 50) (32 / 25) (9435 / 100) (12765 / 100) Pricing.notesStr

/-! ### Helper lemmas -/

namespace Scoring

/-- Splitting lemma: `scoreFilms` is exactly the strict top-3 when the strict pass is
sufficient, the broadened pipeline otherwise. -/
theorem scoreFilms_eq_split (films : JSVal) (c : Ctx) :
    scoreFilms films c =
      if sufficientAfterStrict films c then strictTop3 films c else broadenedAnswer films c := by
  by_cases h : (normalizeFilms films).length = 0
  · have h0 : normalizeFilms films = [] := List.length_eq_zero.mp h
    have hsuff : sufficientAfterStrict films c = false := by
      unfold sufficientAfterStrict strictSorted sufficientStrict sortScored
      rw [h0]
      rfl
    rw [hsuff]
    unfold scoreFilms broadenedAnswer broadenResult strictSorted sortScored
    rw [h0]
    rfl
  · unfold scoreFilms sufficientAfterStrict strictTop3 broadenedAnswer strictSorted
    rw [if_neg h]

/-- De-duplication never lengthens a list. -/
theorem dedupeByKey_length_le : ∀ (l : List Scored) (seen : List String),
    (dedupeByKey l seen).length ≤ l.length
  | [], _ => le_rfl
  | f :: rest, seen => by
    unfold dedupeByKey
    by_cases h : seen.contains (scoredKey f)
    · simp only [h, if_true]
      exact le_trans (dedupeByKey_length_le rest seen) (Nat.le_succ _)
    · simp only [h, if_false, List.length_cons]
      exact Nat.succ_le_succ (dedupeByKey_length_le rest _)

end Scoring

namespace Expand

/-- Membership characterization of `List.contains` on strings. -/
theorem containsStr_iff (l : List String) (a : String) : l.contains a = true ↔ a ∈ l := by
  simp [List.contains_iff_exists_mem_beq]

/-- The de-duplication loop started at count `n ≤ 4` returns at most `5 - n`
items. -/
theorem dedupLoop_length_le : ∀ (l : List JSVal) (seen : List String) (n : ℕ), n ≤ 4 →
    (dedupLoop l seen n).length ≤ 5 - n
  | [], _, _, _ => by simp [dedupLoop]
  | f :: rest, seen, n, hn => by
    rw [dedupLoop]
    by_cases hc : seen.contains (expandKey f)
    · rw [if_pos hc]
      exact dedupLoop_length_le rest seen n hn
    · rw [if_neg hc]
      by_cases h5 : 5 ≤ n + 1
      · rw [if_pos h5]
        simp only [List.length_singleton]
        omega
      · rw [if_neg h5]
        have := dedupLoop_length_le rest (expandKey f :: seen) (n + 1) (by omega)
        simp only [List.length_cons]
        omega

/-- The diversity loop only ever appends to its accumulator, and what it
appends is a subsequence of its input. -/
theorem diversityLoop_append_sublist : ∀ (l : List JSVal) (seen : List String)
    (acc : List JSVal), ∃ s, diversityLoop l seen acc = acc ++ s ∧ List.Sublist s l
  | [], _, acc => ⟨[], by simp [diversityLoop], List.nil_sublist _⟩
  | f :: rest, seen, acc => by
    rw [diversityLoop]
    by_cases hb : aliasOf f = ""
    · rw [if_pos hb]
      obtain ⟨s, hs, hsub⟩ := diversityLoop_append_sublist rest seen acc
      exact ⟨s, hs, hsub.cons f⟩
    · rw [if_neg hb]
      by_cases hpush : (!(seen.contains (aliasOf f)) || decide (3 ≤ acc.length)) = true
      · rw [if_pos hpush]
        by_cases h5 : 5 ≤ (acc ++ [f]).length
        · rw [if_pos h5]
          exact ⟨[f], rfl, (List.nil_sublist rest).cons₂ f⟩
        · rw [if_neg h5]
          obtain ⟨s, hs, hsub⟩ := diversityLoop_append_sublist rest (aliasOf f :: seen) (acc ++ [f])
          exact ⟨f :: s, by rw [hs, List.append_assoc, List.singleton_append], hsub.cons₂ f⟩
      · rw [if_neg hpush]
        by_cases h5 : 5 ≤ acc.length
        · rw [if_pos h5]
          exact ⟨[], by simp, List.nil_sublist _⟩
        · rw [if_neg h5]
          obtain ⟨s, hs, hsub⟩ := diversityLoop_append_sublist rest seen acc
          exact ⟨s, hs, hsub.cons f⟩

/-- The diversity loop never grows its accumulator past five. -/
theorem diversityLoop_length_le : ∀ (l : List JSVal) (seen : List String) (acc : List JSVal),
    acc.length ≤ 4 → (diversityLoop l seen acc).length ≤ 5
  | [], _, acc, h => by rw [diversityLoop]; omega
  | f :: rest, seen, acc, h => by
    rw [diversityLoop]
    by_cases hb : aliasOf f = ""
    · rw [if_pos hb]
      exact diversityLoop_length_le rest seen acc h
    · rw [if_neg hb]
      by_cases hpush : (!(seen.contains (aliasOf f)) || decide (3 ≤ acc.length)) = true
      · rw [if_pos hpush]
        by_cases h5 : 5 ≤ (acc ++ [f]).length
        · rw [if_pos h5]
          simp only [List.length_append, List.length_singleton]
          omega
        · rw [if_neg h5]
          refine diversityLoop_length_le rest _ _ ?_
          simp only [List.length_append, List.length_singleton] at h5 ⊢
          omega
      · rw [if_neg hpush]
        by_cases h5 : 5 ≤ acc.length
        · rw [if_pos h5]; omega
        · rw [if_neg h5]
          exact diversityLoop_length_le rest seen acc h

/-- The first three records the diversity loop selects have pairwise
distinct (case-insensitive) brand aliases: while fewer than three records
are taken, only unseen brands are accepted. -/
theorem diversityLoop_take3_nodup : ∀ (l : List JSVal) (seen : List String) (acc : List JSVal),
    (∀ g ∈ acc, aliasOf g ∈ seen) → (((acc.take 3).map aliasOf)).Nodup →
    ((((diversityLoop l seen acc).take 3)).map aliasOf).Nodup
  | [], _, acc, _, h2 => by rw [diversityLoop]; exact h2
  | f :: rest, seen, acc, h1, h2 => by
    rw [diversityLoop]
    by_cases hb : aliasOf f = ""
    · rw [if_pos hb]
      exact diversityLoop_take3_nodup rest seen acc h1 h2
    · rw [if_neg hb]
      by_cases hpush : (!(seen.contains (aliasOf f)) || decide (3 ≤ acc.length)) = true
      · rw [if_pos hpush]
        have h1' : ∀ g ∈ acc ++ [f], aliasOf g ∈ aliasOf f :: seen := by
          intro g hg
          rcases List.mem_append.mp hg with h | h
          · exact List.mem_cons_of_mem _ (h1 g h)
          · rw [List.mem_singleton.mp h]
            exact List.mem_cons_self _ _
        have h2' : (((acc ++ [f]).take 3).map aliasOf).Nodup := by
          by_cases hlen : 3 ≤ acc.length
          · rw [List.take_append_of_le_length hlen]
            exact h2
          · push_neg at hlen
            have hnotin : aliasOf f ∉ seen := by
              have hd : decide (3 ≤ acc.length) = false := by
                simp only [decide_eq_false_iff_not]
                omega
              rw [hd, Bool.or_false, Bool.not_eq_true'] at hpush
              intro hmem
              rw [← containsStr_iff] at hmem
              rw [hmem] at hpush
              exact Bool.noConfusion hpush
            have htake : (acc ++ [f]).take 3 = acc ++ [f] := by
              apply List.take_of_length_le
              simp only [List.length_append, List.length_singleton]
              omega
            have hacc : (acc.map aliasOf).Nodup := by
              have : acc.take 3 = acc := List.take_of_length_le (by omega)
              rwa [this] at h2
            rw [htake, List.map_append, List.nodup_append]
            refine ⟨hacc, List.nodup_singleton _, ?_⟩
            intro a ha hb2
            rcases List.mem_map.mp ha with ⟨g, hg, rfl⟩
            rw [List.map_singleton, List.mem_singleton] at hb2
            exact hnotin (hb2 ▸ h1 g hg)
        by_cases h5 : 5 ≤ (acc ++ [f]).length
        · rw [if_pos h5]
          exact h2'
        · rw [if_neg h5]
          exact diversityLoop_take3_nodup rest _ _ h1' h2'
      · rw [if_neg hpush]
        by_cases h5 : 5 ≤ acc.length
        · rw [if_pos h5]; exact h2
        · rw [if_neg h5]
          exact diversityLoop_take3_nodup rest seen acc h1 h2

/-- When the keys of a short lists are fresh and pairwise distinct, the
de-duplication loop removes nothing: it is exactly the item construction. -/
theorem dedupLoop_eq_map : ∀ (l : List JSVal) (seen : List String) (n : ℕ),
    l.length + n ≤ 5 → (∀ k ∈ l.map expandKey, k ∉ seen) → (l.map expandKey).Nodup →
    dedupLoop l seen n = l.map (fun f => ⟨f, mkTitle f, mkSubtitle f⟩)
  | [], _, _, _, _, _ => by rw [dedupLoop]; rfl
  | f :: rest, seen, n, hlen, hfresh, hnd => by
    rw [dedupLoop]
    have hcon : ¬ seen.contains (expandKey f) = true := by
      intro hc
      exact hfresh (expandKey f) (by simp) (containsStr_iff seen (expandKey f) |>.mp hc)
    rw [if_neg hcon]
    simp only [List.length_cons] at hlen
    simp only [List.map_cons, List.nodup_cons] at hnd
    by_cases h5 : 5 ≤ n + 1
    · have : rest = [] := by
        rcases rest with _ | ⟨x, xs⟩
        · rfl
        · exfalso
          simp only [List.length_cons] at hlen
          omega
      rw [if_pos h5, this]
      rfl
    · rw [if_neg h5]
      rw [dedupLoop_eq_map rest (expandKey f :: seen) (n + 1) (by omega) ?_ hnd.2]
      · rfl
      · intro k hk
        simp only [List.mem_cons]
        push_neg
        refine ⟨?_, hfresh k (List.mem_cons_of_mem _ hk)⟩
        intro heq
        exact hnd.1 (heq ▸ hk)

end Expand

namespace Expand

/-- Pairwise-distinct catalog keys survive the whole filtering, tier
backfill and ranking pipeline. -/
theorem rankedOf_keys_nodup (catalog : List JSVal) (goals : List String) (ctx : ECtx)
    (h : (catalog.map expandKey).Nodup) :
    ((rankedOf catalog goals ctx).map expandKey).Nodup := by
  have hpool : ((poolOf catalog goals ctx).map expandKey).Nodup :=
    h.sublist ((List.filter_sublist catalog).map expandKey)
  have hinj := List.inj_on_of_nodup_map hpool
  set wb := wantBudgetOf ctx with hwb
  set pool := poolOf catalog goals ctx with hpoolDef
  have htp : ((tierPreferredPool wb pool).map expandKey).Nodup := by
    rw [tierPreferredPool]
    by_cases hlt : (pool.filter (tierPred wb)).length < 5
    · rw [if_pos hlt]
      have hA : ((pool.filter (tierPred wb)).map expandKey).Nodup :=
        hpool.sublist ((List.filter_sublist pool).map expandKey)
      have hBfull : ((pool.filter (fun f => !(tierPred wb f))).map expandKey).Nodup :=
        hpool.sublist ((List.filter_sublist pool).map expandKey)
      have hBsort : ((List.insertionSort (backfillLe wb)
          (pool.filter (fun f => !(tierPred wb f)))).map expandKey).Nodup :=
        (((List.perm_insertionSort (backfillLe wb) _).map expandKey).symm).nodup hBfull
      have hBtake : (((List.insertionSort (backfillLe wb)
          (pool.filter (fun f => !(tierPred wb f)))).take
            (5 - (pool.filter (tierPred wb)).length)).map expandKey).Nodup :=
        hBsort.sublist ((List.take_sublist _ _).map expandKey)
      rw [List.map_append, List.nodup_append]
      refine ⟨hA, hBtake, ?_⟩
      intro a haA haB
      rcases List.mem_map.mp haA with ⟨x, hx, rfl⟩
      rcases List.mem_map.mp haB with ⟨y, hy, hkey⟩
      have hxPool : x ∈ pool := (List.mem_filter.mp hx).1
      have hyFilt : y ∈ pool.filter (fun f => !(tierPred wb f)) :=
        ((List.perm_insertionSort (backfillLe wb) _).mem_iff).mp
          (List.mem_of_mem_take hy)
      have hyPool : y ∈ pool := (List.mem_filter.mp hyFilt).1
      have hxy : x = y := hinj hxPool hyPool hkey.symm
      have hxT := (List.mem_filter.mp hx).2
      have hyT := (List.mem_filter.mp hyFilt).2
      rw [hxy] at hxT
      rw [hxT] at hyT
      exact Bool.noConfusion hyT
    · rw [if_neg hlt]
      exact hpool.sublist ((List.filter_sublist pool).map expandKey)
  exact (((List.perm_insertionSort
    (expandLe (wantGoalsOf goals) (wantVLTOf ctx) wb) _).map expandKey).symm).nodup htp

end Expand

namespace Pricing

/-- On a non-null/undefined head, `find` steps to the predicate test. -/
theorem findFilm_cons (f : JSVal) (rest : List JSVal) (sku : String)
    (h : notNullish f = true) :
    findFilm (f :: rest) sku =
      if jsEqStr (getField f "sku") sku then .ok (some f) else findFilm rest sku := by
  cases f with
  | null => exact absurd h (by simp [notNullish])
  | undefined => exact absurd h (by simp [notNullish])
  | bool b => rfl
  | num q => rfl
  | str s => rfl
  | arr xs => rfl
  | obj fs => rfl

/-- Over a catalog with no null/undefined entries, `find` never throws. -/
theorem findFilm_ok : ∀ (films : List JSVal), films.all notNullish = true →
    ∀ sku, ∃ o, findFilm films sku = .ok o
  | [], _, sku => ⟨none, rfl⟩
  | f :: rest, h, sku => by
    rw [List.all_cons, Bool.and_eq_true] at h
    rw [findFilm_cons f rest sku h.1]
    by_cases hc : jsEqStr (getField f "sku") sku = true
    · exact ⟨some f, by rw [if_pos hc]⟩
    · obtain ⟨o, ho⟩ := findFilm_ok rest h.2 sku
      exact ⟨o, by rw [if_neg hc]; exact ho⟩

/-- Over a catalog with no null/undefined entries, each sku prices to its
total line. -/
theorem priceSku_ok (filmsArr : List JSVal) (h : filmsArr.all notNullish = true)
    (area : ℚ) (pt : String) (sku : String) :
    priceSku filmsArr area pt sku = .ok (priceLineOf filmsArr area pt sku) := by
  obtain ⟨o, ho⟩ := findFilm_ok filmsArr h sku
  rw [priceLineOf, priceSku, ho]
  cases o <;> rfl

/-- Over a catalog with no null/undefined entries, the pricing `map`
succeeds and produces one line per requested sku. -/
theorem mapPrice_ok (filmsArr : List JSVal) (h : filmsArr.all notNullish = true)
    (area : ℚ) (pt : String) : ∀ skus : List String,
    mapPrice filmsArr area pt skus = .ok (skus.map (priceLineOf filmsArr area pt))
  | [] => rfl
  | sku :: rest => by
    rw [mapPrice, priceSku_ok filmsArr h area pt sku, mapPrice_ok filmsArr h area pt rest]
    rfl

/-- Every line a successful pricing call returns is either the not-found
marker or a quote derived from some base unit price `b` by the `±15%` band,
with subtotals computed from the unrounded band times the area. -/
theorem mapPrice_shape (filmsArr : List JSVal) (area : ℚ) (pt : String) :
    ∀ (skus : List String) (lines : List PriceLine),
      mapPrice filmsArr area pt skus = .ok lines →
      ∀ l ∈ lines, (∃ s, l = .notFound s "Film not found") ∨
        ∃ s b, l = .quote s (round2 (b * (85 / 100))) (round2 (b * (115 / 100)))
          (round2 (b * (85 / 100) * area)) (round2 (b * (115 / 100) * area)) notesStr
  | [], lines, h => by
    rw [mapPrice] at h
    injection h with h'
    rw [← h']
    intro l hl
    exact absurd hl (List.not_mem_nil l)
  | sku :: rest, lines, h => by
    rw [mapPrice] at h
    cases hp : priceSku filmsArr area pt sku with
    | error e => rw [hp] at h; exact Except.noConfusion h
    | ok line =>
      rw [hp] at h
      cases hm : mapPrice filmsArr area pt rest with
      | error e => rw [hm] at h; exact Except.noConfusion h
      | ok restLines =>
        rw [hm] at h
        injection h with h'
        rw [← h']
        intro l hl
        rcases List.mem_cons.mp hl with hl | hl
        · rw [priceSku] at hp
          cases hf : findFilm filmsArr sku with
          | error e => rw [hf] at hp; exact Except.noConfusion hp
          | ok o =>
            rw [hf] at hp
            cases o with
            | none =>
              injection hp with hp'
              exact Or.inl ⟨sku, by rw [hl, ← hp']⟩
            | some film =>
              injection hp with hp'
              exact Or.inr ⟨sku, baseUnit film pt, by rw [hl, ← hp']⟩
        · exact mapPrice_shape filmsArr area pt rest restLines hm l hl

end Pricing

/-! ### Claim theorems -/

/-- C2: the broadening pass of `scoreFilms` runs exactly when the strict
pass is insufficient (sufficiency: at least 3 scored records with best score
at least `0.8`, or at least 2 with best score at least `1.0`); in particular,
whenever the strict pass yields at least 3 records with best score at least
`0.8`, the result is exactly the strict top-3 projection and broadening does
not alter it. -/
theorem claim_C2 (films : JSVal) (c : Scoring.Ctx) :
    Scoring.scoreFilms films c =
        (if Scoring.sufficientAfterStrict films c then Scoring.strictTop3 films c
          else Scoring.broadenedAnswer films c)
      ∧ (3 ≤ (Scoring.strictSorted films c).length →
          (8 / 10 : ℚ) ≤ Scoring.strictMaxScore films c →
          Scoring.scoreFilms films c = Scoring.strictTop3 films c) := by
  refine ⟨Scoring.scoreFilms_eq_split films c, fun h3 h8 => ?_⟩
  rw [Scoring.scoreFilms_eq_split films c]
  have hs : Scoring.sufficientAfterStrict films c = true := by
    unfold Scoring.sufficientAfterStrict Scoring.sufficientStrict
    simp only [Bool.or_eq_true, Bool.and_eq_true, decide_eq_true_eq]
    exact Or.inl ⟨h3, h8⟩
  rw [hs]
  rfl

/-- C2 witness: a concrete three-record catalog where the strict pass is
already sufficient, so `scoreFilms` is its strict top-3. -/
theorem claim_C2_witness :
    3 ≤ (Scoring.strictSorted catW ctxW).length ∧
      (8 / 10 : ℚ) ≤ Scoring.strictMaxScore catW ctxW ∧
      Scoring.scoreFilms catW ctxW = Scoring.strictTop3 catW ctxW :=
  ⟨by with_unfolding_all decide, by with_unfolding_all decide,
    (claim_C2 catW ctxW).2 (by with_unfolding_all decide) (by with_unfolding_all decide)⟩

/-- C3: the scored-candidates argument of `expandToProducts` has no effect
on its output — the shortlist is a function of the catalog, goals and
context only. -/
theorem claim_C3 (recs1 recs2 catalog : List JSVal) (goals : List String) (ctx : Expand.ECtx) :
    Expand.expandToProducts recs1 catalog goals ctx =
      Expand.expandToProducts recs2 catalog goals ctx := rfl

/-- C6: the pricing path is *not* exception-free on all data shapes: a flat
mapping with a `null` value normalizes to a catalog containing `null`
(because `typeof null === "object"`), and pricing any identifier against it
throws a `TypeError` reading `.sku` of `null`. -/
theorem claim_C6 :
    Pricing.normalizeFilms (.obj [("a", .null)]) = [.null]
      ∧ Pricing.calculatePricing (.obj [("a", .null)]) ["x"] 100 "residential" =
          .error "TypeError: cannot read field sku of null" :=
  ⟨by with_unfolding_all rfl, by with_unfolding_all rfl⟩

/-- C7 counterexample: two security films identical except for the parsed
mil thickness (7 vs 12) receive *equal* total scores — the security
thickness bonus is not scaled by the thickness. -/
theorem claim_C7_counterexample :
    parseMil "Guard 7 mil" = some 7 ∧ parseMil "Guard 12 mil" = some 12 ∧
      (Scoring.scoreFilms catC7 ctxC7).map Scoring.ScoredOut.score = [5, 5] :=
  ⟨by with_unfolding_all rfl, by with_unfolding_all rfl, by with_unfolding_all rfl⟩

/-- C7 (amended): when the product name parses to a mil thickness of at
least 7, the scorer's security branch adds a *flat* bonus of `2.0`
(recording the parsed thickness in the rationale); the bonus amount does not
depend on the thickness value. -/
theorem claim_C7 (name : String) (m : ℕ) (hm : parseMil name = some m) (h7 : 7 ≤ m) :
    Scoring.milBonus name = (2, [toString m ++ " mil thickness"]) := by
  rw [Scoring.milBonus, hm]
  have hne : m ≠ 0 := by omega
  simp only [if_pos (And.intro hne h7)]

/-- C7 witness: the flat bonus at a concrete 7-mil name. -/
theorem claim_C7_witness :
    Scoring.milBonus "guard 7 mil" = (2, [toString 7 ++ " mil thickness"]) :=
  claim_C7 "guard 7 mil" 7 (by with_unfolding_all rfl) (by norm_num)

/-- C8: `scoreFilms` is deterministic — it is a pure function of the catalog
and the context fields; two contexts with identical field values (and a
non-empty goal set) give identical scores, rationales and ordering. -/
theorem claim_C8 (films : JSVal) (c1 c2 : Scoring.Ctx)
    (hne : ∃ gs, c1.goals = some gs ∧ gs ≠ [])
    (h1 : c1.property_type = c2.property_type) (h2 : c1.goals = c2.goals)
    (h3 : c1.vlt_preference = c2.vlt_preference)
    (h4 : c1.install_location = c2.install_location)
    (h5 : c1.budget_level = c2.budget_level) :
    Scoring.scoreFilms films c1 = Scoring.scoreFilms films c2 := by
  obtain ⟨p1, g1, v1, i1, b1⟩ := c1
  obtain ⟨p2, g2, v2, i2, b2⟩ := c2
  dsimp only at h1 h2 h3 h4 h5
  subst h1 h2 h3 h4 h5
  rfl

/-- C8 witness: determinism discharged at a concrete catalog and context. -/
theorem claim_C8_witness : Scoring.scoreFilms catW ctxW = Scoring.scoreFilms catW ctxW :=
  claim_C8 catW ctxW ctxW ⟨["heat", "glare"], rfl, List.cons_ne_nil "heat" ["glare"]⟩
    rfl rfl rfl rfl rfl

/-- C4 counterexample: with base unit price `1.11` (so `0.85 × 1.11 =
0.9435`), the quoted `unit_price_low` is `0.94` but `subtotal_low` is
`94.35` for area 100 — which is *not* `round2(quoted unit_price_low × area)
= 94`: the subtotal is computed from the unrounded unit price. -/
theorem claim_C4_counterexample :
    Pricing.calculatePricing (.arr [filmC4]) ["a"] 100 "residential" = .ok [lineC4]
      ∧ lineC4.uLow = 47 / 50 ∧ lineC4.sLow = 9435 / 100
      ∧ lineC4.sLow ≠ round2 (lineC4.uLow * 100) :=
  ⟨by with_unfolding_all rfl, by with_unfolding_all rfl, by with_unfolding_all rfl,
    by with_unfolding_all decide⟩

/-- C4 (amended): every quote line of identifier-based pricing carries
`unit_price_low/high = round2(b × 0.85 / 1.15)` and `subtotal_low/high =
round2((b × 0.85 / 1.15) × area)` for the record's base unit price `b` —
i.e. the subtotals are the *unrounded* unit bounds times the area, rounded
to 2 decimals (equal to `round2(quoted unit × area)` only when the unrounded
bound already has at most 2 decimals); for the baseline tiers, whose unit
bounds are whole numbers, `subtotal = round2(quoted unit × area)` holds
exactly and `unit_price_low < unit_price_high` on every tier. -/
theorem claim_C4 :
    (∀ (films : JSVal) (skus : List String) (area : ℚ) (pt : String)
        (lines : List Pricing.PriceLine),
        Pricing.calculatePricing films skus area pt = .ok lines →
        ∀ l ∈ lines, (∃ s, l = .notFound s "Film not found") ∨
          ∃ s b, l = .quote s (round2 (b * (85 / 100))) (round2 (b * (115 / 100)))
            (round2 (b * (85 / 100) * area)) (round2 (b * (115 / 100) * area))
            Pricing.notesStr)
      ∧ ∀ (area : ℚ) (pt : String), ∀ q ∈ Estimate.estimateQuotes area pt none,
          q.sLow = round2 (q.uLow * area) ∧ q.sHigh = round2 (q.uHigh * area) ∧
            q.uLow < q.uHigh := by
  constructor
  · intro films skus area pt lines h
    exact Pricing.mapPrice_shape (Pricing.normalizeFilms films) area pt skus lines h
  · intro area pt q hq
    have hq' : q ∈ (Estimate.tiersFor pt).map (Estimate.tierQuote area) := hq
    rw [Estimate.tiersFor] at hq'
    by_cases hc : pt = "commercial"
    · rw [if_pos hc] at hq'
      simp only [List.map_cons, List.map_nil, List.mem_cons, List.not_mem_nil, or_false] at hq'
      rcases hq' with rfl | rfl | rfl
      · exact ⟨by show round2 (area * 16) = round2 ((16 : ℚ) * area); rw [mul_comm],
          by show round2 (area * 21) = round2 ((21 : ℚ) * area); rw [mul_comm],
          show (16 : ℚ) < 21 by norm_num⟩
      · exact ⟨by show round2 (area * 18) = round2 ((18 : ℚ) * area); rw [mul_comm],
          by show round2 (area * 23) = round2 ((23 : ℚ) * area); rw [mul_comm],
          show (18 : ℚ) < 23 by norm_num⟩
      · exact ⟨by show round2 (area * 20) = round2 ((20 : ℚ) * area); rw [mul_comm],
          by show round2 (area * 26) = round2 ((26 : ℚ) * area); rw [mul_comm],
          show (20 : ℚ) < 26 by norm_num⟩
    · rw [if_neg hc] at hq'
      simp only [List.map_cons, List.map_nil, List.mem_cons, List.not_mem_nil, or_false] at hq'
      rcases hq' with rfl | rfl | rfl
      · exact ⟨by show round2 (area * 14) = round2 ((14 : ℚ) * area); rw [mul_comm],
          by show round2 (area * 19) = round2 ((19 : ℚ) * area); rw [mul_comm],
          show (14 : ℚ) < 19 by norm_num⟩
      · exact ⟨by show round2 (area * 16) = round2 ((16 : ℚ) * area); rw [mul_comm],
          by show round2 (area * 21) = round2 ((21 : ℚ) * area); rw [mul_comm],
          show (16 : ℚ) < 21 by norm_num⟩
      · exact ⟨by show round2 (area * 18) = round2 ((18 : ℚ) * area); rw [mul_comm],
          by show round2 (area * 24) = round2 ((24 : ℚ) * area); rw [mul_comm],
          show (18 : ℚ) < 24 by norm_num⟩

/-- C4 witness: the amended shape instantiated on the concrete quote line. -/
theorem claim_C4_witness :
    (∃ s, lineC4 = .notFound s "Film not found") ∨
      ∃ s b, lineC4 = .quote s (round2 (b * (85 / 100))) (round2 (b * (115 / 100)))
        (round2 (b * (85 / 100) * 100)) (round2 (b * (115 / 100) * 100)) Pricing.notesStr :=
  claim_C4.1 (.arr [filmC4]) ["a"] 100 "residential" [lineC4]
    (by with_unfolding_all rfl) lineC4 (List.mem_singleton_self lineC4)

/-- C5: over a catalog without null/undefined entries, identifier pricing
returns exactly one line per requested identifier; each line is a function
of its own identifier alone (pricing it in a singleton call gives the same
line, so resolution of one identifier cannot affect another); an unmatched
identifier yields the explicit not-found marker (which has no numeric
fields), and a matched one yields the `±15%` quote on the record's
property-type-specific unit price, rounded to 2 decimals. -/
theorem claim_C5 (films : List JSVal) (skus : List String) (area : ℚ) (pt : String)
    (h : films.all Pricing.notNullish = true) :
    Pricing.calculatePricing (.arr films) skus area pt =
        .ok (skus.map (Pricing.priceLineOf films area pt))
      ∧ (∀ sku ∈ skus, Pricing.calculatePricing (.arr films) [sku] area pt =
          .ok [Pricing.priceLineOf films area pt sku])
      ∧ (∀ sku, Pricing.findFilm films sku = .ok none →
          Pricing.priceLineOf films area pt sku = .notFound sku "Film not found")
      ∧ ∀ sku film, Pricing.findFilm films sku = .ok (some film) →
          Pricing.priceLineOf films area pt sku =
            .quote sku (round2 (Pricing.baseUnit film pt * (85 / 100)))
              (round2 (Pricing.baseUnit film pt * (115 / 100)))
              (round2 (Pricing.baseUnit film pt * (85 / 100) * area))
              (round2 (Pricing.baseUnit film pt * (115 / 100) * area)) Pricing.notesStr := by
  refine ⟨Pricing.mapPrice_ok films h area pt skus, ?_, ?_, ?_⟩
  · intro sku _
    exact Pricing.mapPrice_ok films h area pt [sku]
  · intro sku hsku
    rw [Pricing.priceLineOf, Pricing.priceSku, hsku]
  · intro sku film hsku
    rw [Pricing.priceLineOf, Pricing.priceSku, hsku]

/-- C5 witness: one resolvable and one unknown identifier in the same call —
the unknown yields the marker, the known one is still priced. -/
theorem claim_C5_witness :
    catC5.all Pricing.notNullish = true ∧
      Pricing.calculatePricing (.arr catC5) ["good", "missing"] 100 "residential" =
        .ok (["good", "missing"].map (Pricing.priceLineOf catC5 100 "residential")) :=
  ⟨by with_unfolding_all rfl,
    (claim_C5 catC5 ["good", "missing"] 100 "residential" (by with_unfolding_all rfl)).1⟩

/-- C9: a baseline pricing call (commercial, no identifiers, no tier) yields
exactly the three tier quotes value/mid/premium; for any area at least the
minimum 10, every quote has `subtotal_low < subtotal_high`; and each
commercial tier's unit bounds dominate the residential ones. -/
theorem claim_C9 (area : ℚ) (h : 10 ≤ area) :
    ((Estimate.estimateQuotes area "commercial" none).map Pricing.PriceLine.skuOf =
        ["baseline_value", "baseline_mid", "baseline_premium"])
      ∧ (∀ q ∈ Estimate.estimateQuotes area "commercial" none,
          q.isQuote = true ∧ q.sLow < q.sHigh)
      ∧ List.Forall₂ (fun qc qr => qr.uLow ≤ qc.uLow ∧ qr.uHigh ≤ qc.uHigh)
          (Estimate.estimateQuotes area "commercial" none)
          (Estimate.estimateQuotes area "residential" none) := by
  have hc : Estimate.estimateQuotes area "commercial" none =
      [Estimate.tierQuote area ⟨"baseline_value", 16, 21⟩,
        Estimate.tierQuote area ⟨"baseline_mid", 18, 23⟩,
        Estimate.tierQuote area ⟨"baseline_premium", 20, 26⟩] := by
    with_unfolding_all rfl
  have hr : Estimate.estimateQuotes area "residential" none =
      [Estimate.tierQuote area ⟨"baseline_value", 14, 19⟩,
        Estimate.tierQuote area ⟨"baseline_mid", 16, 21⟩,
        Estimate.tierQuote area ⟨"baseline_premium", 18, 24⟩] := by
    with_unfolding_all rfl
  refine ⟨by rw [hc]; rfl, ?_, ?_⟩
  · intro q hq
    rw [hc] at hq
    simp only [List.mem_cons, List.not_mem_nil, or_false] at hq
    rcases hq with rfl | rfl | rfl
    · exact ⟨rfl, round2_strict (show area * 16 + 1 ≤ area * 21 by linarith)⟩
    · exact ⟨rfl, round2_strict (show area * 18 + 1 ≤ area * 23 by linarith)⟩
    · exact ⟨rfl, round2_strict (show area * 20 + 1 ≤ area * 26 by linarith)⟩
  · rw [hc, hr]
    exact .cons ⟨show (14 : ℚ) ≤ 16 by norm_num, show (19 : ℚ) ≤ 21 by norm_num⟩
      (.cons ⟨show (16 : ℚ) ≤ 18 by norm_num, show (21 : ℚ) ≤ 23 by norm_num⟩
        (.cons ⟨show (18 : ℚ) ≤ 20 by norm_num, show (24 : ℚ) ≤ 26 by norm_num⟩ .nil))

/-- C9 witness: the scenario at area 200. -/
theorem claim_C9_witness :
    (10 : ℚ) ≤ 200 ∧
      (Estimate.estimateQuotes 200 "commercial" none).map Pricing.PriceLine.skuOf =
        ["baseline_value", "baseline_mid", "baseline_premium"] :=
  ⟨by norm_num, (claim_C9 200 (by norm_num)).1⟩

/-- C10: `scoreFilms` returns at most 5 entries; when the strict pass is
sufficient it returns the strict top-3 (at most 3 entries, scores in
descending order); and in every case each returned entry is exactly the
`project`ion (fields `sku`, `brand`, `vlt`, `ir_pct`, `uv_pct`, `score`
rounded to 2 decimals, `why`) of a scored record. -/
theorem claim_C10 (films : JSVal) (c : Scoring.Ctx) :
    (Scoring.scoreFilms films c).length ≤ 5
      ∧ (Scoring.sufficientAfterStrict films c = true →
          Scoring.scoreFilms films c = Scoring.strictTop3 films c
            ∧ (Scoring.scoreFilms films c).length ≤ 3
            ∧ List.Chain' (fun a b : ℚ => b ≤ a)
                ((Scoring.scoreFilms films c).map Scoring.ScoredOut.score))
      ∧ ∃ l : List Scoring.Scored, Scoring.scoreFilms films c = l.map Scoring.project := by
  have hsplit := Scoring.scoreFilms_eq_split films c
  by_cases hs : Scoring.sufficientAfterStrict films c = true
  · rw [if_pos hs] at hsplit
    have hlen3 : (Scoring.scoreFilms films c).length ≤ 3 := by
      rw [hsplit, Scoring.strictTop3, List.length_map]
      exact List.length_take_le 3 _
    refine ⟨le_trans hlen3 (by norm_num), fun _ => ⟨hsplit, hlen3, ?_⟩, ?_⟩
    · have hsort : List.Sorted Scoring.scoreGe (Scoring.strictSorted films c) :=
        List.sorted_insertionSort Scoring.scoreGe _
      have htake : ((Scoring.strictSorted films c).take 3).Pairwise Scoring.scoreGe :=
        hsort.sublist (List.take_sublist 3 _)
      have hp2 : List.Pairwise (fun a b : ℚ => b ≤ a)
          (((Scoring.strictSorted films c).take 3).map (fun s => round2 s.score)) := by
        rw [List.pairwise_map]
        exact htake.imp (fun hab => round2_mono hab)
      rw [hsplit, Scoring.strictTop3, List.map_map]
      exact hp2.chain'
    · exact ⟨(Scoring.strictSorted films c).take 3, hsplit⟩
  · rw [if_neg hs] at hsplit
    refine ⟨?_, fun hcon => absurd hcon hs, ?_⟩
    · rw [hsplit, Scoring.broadenedAnswer, Scoring.broadenResult, List.length_map]
      exact le_trans (Scoring.dedupeByKey_length_le _ _) (List.length_take_le 5 _)
    · exact ⟨Scoring.dedupeByKey
        ((Scoring.sortScored ((Scoring.strictSorted films c).map
          (Scoring.broadenFilm c))).take 5) [], hsplit⟩

/-- C10 witness: the sufficient branch at a concrete catalog. -/
theorem claim_C10_witness :
    Scoring.sufficientAfterStrict catW ctxW = true ∧
      (Scoring.scoreFilms catW ctxW).length ≤ 3 :=
  ⟨by with_unfolding_all rfl,
    ((claim_C10 catW ctxW).2.1 (by with_unfolding_all rfl)).2.1⟩

/-- C1 counterexample: a catalog with six eligible films over exactly five
distinct (case-insensitive) brands, where the expansion returns *two* items
of brand `alpha` — the one-item-per-brand rule is abandoned as soon as three
items are selected, even though five distinct brands were eligible. -/
theorem claim_C1_counterexample :
    ((Expand.poolOf catC1 ["heat"] ctxC1).map Expand.aliasOf).dedup.length = 5
      ∧ (Expand.expandToProducts [] catC1 ["heat"] ctxC1).map
          (fun it => Expand.aliasOf it.film) =
          ["alpha", "beta", "gamma", "alpha", "delta"] :=
  ⟨by with_unfolding_all rfl, by with_unfolding_all rfl⟩

/-- C1 (amended): for any catalog whose de-duplication keys are pairwise
distinct, `expandToProducts` returns at most 5 items, and one-item-per-brand
(case-insensitive, via the lowercased alias) is enforced only for the first
three selections; from the fourth item on, repeat brands are permitted even
when five or more distinct brands are eligible. -/
theorem claim_C1 (recs catalog : List JSVal) (goals : List String) (ctx : Expand.ECtx)
    (h : (catalog.map Expand.expandKey).Nodup) :
    (Expand.expandToProducts recs catalog goals ctx).length ≤ 5
      ∧ (((Expand.expandToProducts recs catalog goals ctx).take 3).map
          (fun it => Expand.aliasOf it.film)).Nodup := by
  have hkeys := Expand.rankedOf_keys_nodup catalog goals ctx h
  obtain ⟨s, hs, hsub⟩ :=
    Expand.diversityLoop_append_sublist (Expand.rankedOf catalog goals ctx) [] []
  have hlen5 : (Expand.diversityLoop (Expand.rankedOf catalog goals ctx) [] []).length ≤ 5 :=
    Expand.diversityLoop_length_le _ [] [] (by simp)
  have hknd : ((Expand.diversityLoop (Expand.rankedOf catalog goals ctx) [] []).map
      Expand.expandKey).Nodup := by
    rw [hs, List.nil_append]
    exact hkeys.sublist (hsub.map Expand.expandKey)
  have heq : Expand.expandToProducts recs catalog goals ctx =
      (Expand.diversityLoop (Expand.rankedOf catalog goals ctx) [] []).map
        (fun f => ⟨f, Expand.mkTitle f, Expand.mkSubtitle f⟩) := by
    rw [Expand.expandToProducts]
    exact Expand.dedupLoop_eq_map _ [] 0 (by omega) (fun k _ => List.not_mem_nil k) hknd
  constructor
  · rw [heq, List.length_map]
    exact hlen5
  · rw [heq, ← List.map_take, List.map_map]
    exact Expand.diversityLoop_take3_nodup (Expand.rankedOf catalog goals ctx) [] []
      (fun g hg => absurd hg (List.not_mem_nil g)) (by simp)

/-- C1 witness: the amended bounds at the concrete six-film catalog. -/
theorem claim_C1_witness :
    (catC1.map Expand.expandKey).Nodup ∧
      (Expand.expandToProducts [] catC1 ["heat"] ctxC1).length ≤ 5 ∧
      (((Expand.expandToProducts [] catC1 ["heat"] ctxC1).take 3).map
        (fun it => Expand.aliasOf it.film)).Nodup :=
  ⟨by with_unfolding_all decide,
    (claim_C1 [] catC1 ["heat"] ctxC1 (by with_unfolding_all decide)).1,
    (claim_C1 [] catC1 ["heat"] ctxC1 (by with_unfolding_all decide)).2⟩
